import Mathlib

open Matrix

/-!
Verification of the vehicle-tracking edge client.

This file gives a shallow embedding in Lean 4 of the parts of the program
that the audited properties are about:

* `src/gps.py` — CGNSSINFO parsing (`GPS.check_gps_fix`, `GPS.get_data`);
* `src/imu.py` — the 16-bit register decoder, the stationary detector in
  `IMU.read_data`, the Kalman prediction and GPS-measurement update, and
  `IMU.update_gps` / `IMU.get_speed`;
* `main.py` — `VehicleTracker.calculate_speed`, the offline queue
  (`log_offline` / `send_offline_data`) and the dead-reckoning fallback in
  `VehicleTracker.run`.

Modelling conventions:

* Python strings are modelled as `List Char`; `str.split(sep)` and substring
  containment are re-implemented structurally (`pySplit`, `containsSub`) with
  the exact left-to-right non-overlapping semantics of CPython.
* Python numbers (floats and ints) are modelled as exact rationals and
  naturals.  The decimal literals appearing in the program and in its device
  responses are exactly representable, so nothing in the audited properties
  depends on binary floating point rounding.
* The transcendental library functions `math.cos`, `math.sin` (composed with
  `math.radians`) and `math.sqrt` are abstracted as function parameters
  (`cosD`, `sinD`, `sqrtD`): every fact proved below holds for all values of
  these parameters, and none of the audited properties depends on them.
* `numpy` matrices are modelled as `Matrix (Fin n) (Fin m) ℚ`;
  `np.linalg.inv` on the 2x2 innovation matrix is modelled by Mathlib's
  matrix inverse, which agrees with the true inverse whenever the
  determinant is nonzero (proved below under the covariance hypotheses).
-/

/-- Python strings, modelled as their character sequences. -/
abbrev PyStr := List Char

/-- Character data of a Lean string literal. -/
def lit (s : String) : PyStr := s.data

/-- Model of Python `pat in s` (substring containment). -/
def containsSub (pat : PyStr) : PyStr → Bool
  | [] => pat.isEmpty
  | c :: rest => pat.isPrefixOf (c :: rest) || containsSub pat rest

/-- Fuel-indexed worker for `pySplit`; the fuel is the length of the string,
which bounds the number of scanning steps. -/
def pySplitGo (sep : PyStr) : ℕ → PyStr → PyStr → List PyStr
  | 0, s, acc => [acc.reverse ++ s]
  | _ + 1, [], acc => [acc.reverse]
  | fuel + 1, c :: rest, acc =>
    if sep.isPrefixOf (c :: rest) then
      acc.reverse :: pySplitGo sep fuel ((c :: rest).drop sep.length) []
    else
      pySplitGo sep fuel rest (c :: acc)

/-- Model of Python `s.split(sep)` for a non-empty separator `sep`:
left-to-right scan, non-overlapping matches. -/
def pySplit (s sep : PyStr) : List PyStr :=
  if sep.isEmpty then [s] else pySplitGo sep s.length s []

/-- Worker for `pyInt?`, accumulating the value of a digit string. -/
def decDigitsGo : PyStr → ℕ → Option ℕ
  | [], acc => some acc
  | c :: rest, acc =>
    if c.isDigit then decDigitsGo rest (acc * 10 + (c.toNat - 48)) else none

/-- Model of Python `int(s)` on the non-negative decimal literals this
program feeds it (satellite counts). -/
def pyInt? (s : PyStr) : Option ℕ :=
  match s with
  | [] => none
  | _ => decDigitsGo s 0

/-- Model of Python `float(s)` on the signed decimal literals this program
feeds it (coordinates, altitude, speed), as an exact rational. -/
def pyFloat? (s : PyStr) : Option ℚ :=
  let sgn : ℚ := match s with
    | '-' :: _ => -1
    | _ => 1
  let t : PyStr := match s with
    | '-' :: rest => rest
    | '+' :: rest => rest
    | _ => s
  match pySplit t (lit (".")) with
  | [ip] => (pyInt? ip).map (fun n => sgn * (n : ℚ))
  | [ip, fp] =>
    if ip.isEmpty && fp.isEmpty then none
    else
      let ipv : Option ℕ := if ip.isEmpty then some 0 else pyInt? ip
      let fpv : Option ℕ := if fp.isEmpty then some 0 else pyInt? fp
      match ipv, fpv with
      | some i, some f => some (sgn * ((i : ℚ) + (f : ℚ) / (10 : ℚ) ^ fp.length))
      | _, _ => none
  | _ => none

/-- Round-half-to-even on rationals: the tie-breaking rule of Python's
built-in `round`. -/
def roundHalfEven (q : ℚ) : ℤ :=
  let n := ⌊q⌋
  let r := q - (n : ℚ)
  if r < 1/2 then n
  else if 1/2 < r then n + 1
  else if Even n then n else n + 1

/-- Model of Python `round(x, 2)`. -/
def round2 (q : ℚ) : ℚ := (roundHalfEven (q * 100) : ℚ) / 100

/-! ## GPS (`src/gps.py`)

`GPS.check_gps_fix` and `GPS.get_data` issue `AT+CGNSSINFO` and parse the
`+CGNSSINFO: ...` response line.  The serial exchange is modelled by passing
the response lines (or `none` for a failed / empty exchange) as an input. -/

/-- The comma-separated fields of a CGNSSINFO line:
`line.split(': ')[1].split(',')`.  A line reaching this code always contains
`"+CGNSSINFO: "`, hence `": "`, so the split has a second component; the
`getD` default covers the unreachable case (in the source an `IndexError`
there would be caught and reported as "no fix" / `None`, which is what the
default produces as well). -/
def cgnssFields (line : PyStr) : List PyStr :=
  pySplit ((pySplit line (lit (": "))).getD 1 []) (lit (","))

/-- The fix criterion of `GPS.check_gps_fix`:
`len(fields) >= 9 and fields[5] and fields[7]`. -/
def hasFixFields (fields : List PyStr) : Bool :=
  decide (9 ≤ fields.length) && !(fields.getD 5 []).isEmpty
    && !(fields.getD 7 []).isEmpty

/-- Satellite-count update: `int(fields[1])` when field 1 is present and
non-empty, keeping the old count on a parse error. -/
def satUpdate (fields : List PyStr) (old : ℕ) : ℕ :=
  if 1 < fields.length ∧ ¬(fields.getD 1 []).isEmpty then
    match pyInt? (fields.getD 1 []) with
    | some n => n
    | none => old
  else old

/-- The mutable attributes of the `GPS` object that `check_gps_fix` touches. -/
structure GpsState where
  hasFix : Bool
  lastFixCheck : ℚ
  satellites : ℕ
  fixCheckInterval : ℚ
deriving DecidableEq

/-- Result of one `check_gps_fix` call: returned value, post state, and
whether an `AT+CGNSSINFO` transaction was issued. -/
structure FixCheck where
  value : Bool
  state : GpsState
  txIssued : Bool
deriving DecidableEq

/-- `GPS.check_gps_fix`.  `resp` is the outcome of `send_command`: `none`
models a failed or empty exchange, `some lines` a received line list. -/
def checkGpsFix (s : GpsState) (now : ℚ) (resp : Option (List PyStr)) :
    FixCheck :=
  if now - s.lastFixCheck < s.fixCheckInterval then
    ⟨s.hasFix, s, false⟩
  else
    let s0 : GpsState := { s with lastFixCheck := now }
    match resp with
    | none => ⟨false, { s0 with hasFix := false }, true⟩
    | some lines =>
      match lines.find? (fun l => containsSub (lit ("+CGNSSINFO: ")) l) with
      | none => ⟨false, { s0 with hasFix := false }, true⟩
      | some line =>
        let fields := cgnssFields line
        let fix := hasFixFields fields
        ⟨fix, { s0 with hasFix := fix, satellites := satUpdate fields s.satellites }, true⟩

/-- The dictionary returned by `GPS.get_data` on success. -/
structure GpsReading where
  latitude : ℚ
  longitude : ℚ
  speed : ℚ
  satellites : ℕ
  altitude : Option ℚ
  raw : PyStr
deriving DecidableEq

/-- The parsing part of `GPS.get_data` (lines 376-450 of `src/gps.py`),
applied to the CGNSSINFO line found in the response; `prevSats` is the
satellite count stored on the object before the call. -/
def gpsGetData (prevSats : ℕ) (line : PyStr) : Option GpsReading :=
  let fields := cgnssFields line
  if fields.length < 9 then none
  else if (fields.getD 5 []).isEmpty ∨ (fields.getD 7 []).isEmpty then none
  else
    let sats := if ¬(fields.getD 1 []).isEmpty then
        (pyInt? (fields.getD 1 [])).getD prevSats
      else prevSats
    match pyFloat? (fields.getD 5 []) with
    | none => none
    | some lat0 =>
      let lat := if fields.getD 6 [] = lit ("S") then -lat0 else lat0
      match pyFloat? (fields.getD 7 []) with
      | none => none
      | some lon0 =>
        let lon := if fields.getD 8 [] = lit ("W") then -lon0 else lon0
        let alt := if 11 < fields.length ∧ ¬(fields.getD 11 []).isEmpty then
            pyFloat? (fields.getD 11 [])
          else none
        let spd := if 12 < fields.length ∧ ¬(fields.getD 12 []).isEmpty then
            (pyFloat? (fields.getD 12 [])).getD 0
          else 0
        some ⟨lat, lon, spd, sats, alt, line⟩

/-- The response line of claim C1, from the diagnostic in the source. -/
def c1Line : PyStr :=
  lit ("+CGNSSINFO: 3,17,,09,10,14.6198673,N,121.1038513,E,120525,112149.00,78.0,0.000,15.78,1.91,0.95,1.6")

/-- A malformed response line used as a concrete witness input for C5. -/
def w5Line : PyStr := lit ("+CGNSSINFO: 2,05")

/-! ## Offline queue (`main.py`)

`log_offline` appends a record; `send_offline_data` walks a copy of the
queue and removes each record whose send succeeds (`list.remove` deletes
the first equal occurrence).  Sending is modelled, as in the claim, by a
success predicate on records. -/

/-- `VehicleTracker.log_offline`: append the record to the queue. -/
def logOffline {α : Type} (q : List α) (d : α) : List α := q ++ [d]

/-- The loop of `send_offline_data`: iterate over the snapshot (first
argument) while mutating the live queue (second argument). -/
def sendOfflineGo {α : Type} [DecidableEq α] (send : α → Bool) :
    List α → List α → List α
  | [], cur => cur
  | x :: xs, cur => sendOfflineGo send xs (if send x then cur.erase x else cur)

/-- `VehicleTracker.send_offline_data`: `for data in self.offline_data[:]:
if self.send_data(data): self.offline_data.remove(data)`. -/
def sendOfflineData {α : Type} [DecidableEq α] (send : α → Bool) (q : List α) :
    List α :=
  sendOfflineGo send q q

/-! ## Speed fusion (`VehicleTracker.calculate_speed`, `main.py`) -/

/-- The `'speed'` and `'is_stationary'` entries of an IMU data dictionary. -/
structure ImuSample where
  speed : ℚ
  isStationary : Bool
deriving DecidableEq

/-- `VehicleTracker.calculate_speed` as a function of the available GPS
speed (`none` when `gps_data` is absent or has no speed), the available IMU
sample (`none` when `imu_data` is absent or has no `'speed'` key) and the
stored `current_speed`.  Constants from the source: `speed_alpha = 0.8`,
the stationary blend `0.5/0.5` and the snap threshold `0.5`. -/
def calculateSpeed (gpsSpeed : Option ℚ) (imu : Option ImuSample)
    (lastSpeed : ℚ) : ℚ :=
  match gpsSpeed with
  | some g =>
    match imu with
    | some i =>
      if i.speed = 0 ∧ i.isStationary = true then
        let c := 1/2 * g + 1/2 * i.speed
        round2 (if c < 1/2 then 0 else c)
      else
        round2 (4/5 * g + 1/5 * i.speed)
    | none => round2 g
  | none =>
    match imu with
    | some i => round2 (if i.isStationary = true then 0 else i.speed)
    | none => round2 lastSpeed

/-- Blending toward zero used by the spec's stationary case (the source's
50/50 blend). -/
def blendTowardZero (g i : ℚ) : ℚ := 1/2 * g + 1/2 * i

/-- Snap a value to exactly `0` when it is below `eps`. -/
def snapBelow (eps x : ℚ) : ℚ := if x < eps then 0 else x

/-- The reference definition of claim C2, written from the spec's words:
both sources available → `α·gps + (1-α)·imu` with `α = 0.8`; an IMU sample
reporting stationary (zero speed with the stationary flag) → blend toward 0
and snap to exactly 0 below the small epsilon; one source → that source's
speed; none → the last known speed.  Outputs are rounded to two decimals as
everywhere in the program. -/
def specCalculateSpeed (gpsSpeed : Option ℚ) (imu : Option ImuSample)
    (lastSpeed : ℚ) : ℚ :=
  round2 (match gpsSpeed, imu with
    | some g, some i =>
      if i.isStationary = true ∧ i.speed = 0 then
        snapBelow (1/2) (blendTowardZero g i.speed)
      else 4/5 * g + 1/5 * i.speed
    | some g, none => g
    | none, some i => i.speed
    | none, none => lastSpeed)

/-- The reference definition of C2 as amended: when only the IMU is
available and its stationary flag is set, the result is exactly `0`
regardless of the reported speed. -/
def specCalculateSpeedAmended (gpsSpeed : Option ℚ) (imu : Option ImuSample)
    (lastSpeed : ℚ) : ℚ :=
  round2 (match gpsSpeed, imu with
    | some g, some i =>
      if i.isStationary = true ∧ i.speed = 0 then
        snapBelow (1/2) (blendTowardZero g i.speed)
      else 4/5 * g + 1/5 * i.speed
    | some g, none => g
    | none, some i => if i.isStationary = true then 0 else i.speed
    | none, none => lastSpeed)

/-! ## Dead-reckoning fallback (`VehicleTracker.run`, `main.py`) -/

/-- The `'position'` and `'speed'` entries of the IMU data used by the
fallback. -/
structure ImuTickData where
  position : Option (ℚ × ℚ)
  speed : ℚ
deriving DecidableEq

/-- The synthetic GPS-shaped record created by the fallback. -/
structure SynthGps where
  latitude : ℚ
  longitude : ℚ
  speed : ℚ
  deadReckoning : Bool
deriving DecidableEq

/-- The dead-reckoning fallback block of `VehicleTracker.run`
(lines 549-566): given the tick time, the dead-reckoning start time, the
ceiling `max_dead_reckoning_time`, the failure flags, the current
`using_dead_reckoning` flag, the IMU data of the tick and whether the tick
already has GPS data, produce the synthetic GPS record (if any) and the new
`using_dead_reckoning` flag. -/
def deadReckoningFallback (currentTime drStart maxDr : ℚ)
    (gpsFailure imuFailure usingDr : Bool)
    (imuData : Option ImuTickData) (hasGpsInData : Bool) :
    Option SynthGps × Bool :=
  if gpsFailure = true ∧ imuFailure = false ∧ usingDr = true then
    if maxDr < currentTime - drStart then (none, false)
    else
      match imuData with
      | some d =>
        if d.position ≠ none ∧ hasGpsInData = false then
          match d.position with
          | some p => (some ⟨p.1, p.2, d.speed, true⟩, usingDr)
          | none => (none, usingDr)
        else (none, usingDr)
      | none => (none, usingDr)
  else (none, usingDr)

/-! ## 16-bit register decoding (`src/imu.py`) -/

/-- `IMU._to_signed_int16`: `value - 65536 if value > 32767 else value`. -/
def toSignedInt16 (v : ℤ) : ℤ := if 32767 < v then v - 65536 else v

/-- The 16-bit word assembly of `IMU.read_raw_data`: `(hi << 8) | lo`. -/
def combine16 (hi lo : ℕ) : ℕ := (hi <<< 8) ||| lo

/-! ## IMU state, stationary detection and Kalman filter (`src/imu.py`) -/

/-- A GPS data dictionary as consumed by `IMU.update_gps` /
`IMU._update_kalman_with_gps` (absent keys are `none`). -/
structure GpsInput where
  latitude : Option ℚ
  longitude : Option ℚ
  speed : Option ℚ
  heading : Option ℚ
deriving DecidableEq

/-- The mutable attributes of the `IMU` object used by the audited code
paths. -/
structure ImuState where
  lastGpsTime : ℚ
  lastUpdateTime : ℚ
  currentSpeed : ℚ
  currentHeading : ℚ
  isStationary : Bool
  filteredAccel : ℚ
  consecutiveStationarySamples : ℕ
  motionThreshold : ℚ
  stationaryThreshold : ℚ
  gravityNorm : ℚ
  lastMotionTime : ℚ
  kalmanInitialized : Bool
  kfState : Fin 7 → ℚ
  kfCov : Matrix (Fin 7) (Fin 7) ℚ
  lastPosition : Option (ℚ × ℚ)
  imuPosition : Option (ℚ × ℚ)
  lastGps : Option GpsInput

/-- Process noise `Q = np.eye(7) * 0.01`. -/
def kfProcessNoise : Matrix (Fin 7) (Fin 7) ℚ := (1/100 : ℚ) • 1

/-- State transition matrix `F` of `_predict_kalman` (state
`[x, y, vx, vy, ax, ay, heading]`). -/
def stateTransition (dt : ℚ) : Matrix (Fin 7) (Fin 7) ℚ :=
  Matrix.of fun i j =>
    if i = j then 1
    else if i.val = 0 ∧ j.val = 2 then dt
    else if i.val = 0 ∧ j.val = 4 then 1/2 * dt * dt
    else if i.val = 1 ∧ j.val = 3 then dt
    else if i.val = 1 ∧ j.val = 5 then 1/2 * dt * dt
    else if i.val = 2 ∧ j.val = 4 then dt
    else if i.val = 3 ∧ j.val = 5 then dt
    else 0

/-- Covariance propagation of `_predict_kalman`: `P = F P Fᵀ + Q`. -/
def predictCov (dt : ℚ) (P : Matrix (Fin 7) (Fin 7) ℚ) :
    Matrix (Fin 7) (Fin 7) ℚ :=
  stateTransition dt * P * (stateTransition dt)ᵀ + kfProcessNoise

/-- `IMU._predict_kalman` (a no-op when the filter is uninitialized). -/
def predictKalman (dt : ℚ) (s : ImuState) : ImuState :=
  if s.kalmanInitialized = true then
    { s with kfState := (stateTransition dt).mulVec s.kfState,
             kfCov := predictCov dt s.kfCov }
  else s

/-- GPS measurement matrix `H` of `_update_kalman_with_gps`
(selects `[vx, vy]`). -/
def hGps : Matrix (Fin 2) (Fin 7) ℚ :=
  Matrix.of fun i j =>
    if (i.val = 0 ∧ j.val = 2) ∨ (i.val = 1 ∧ j.val = 3) then 1 else 0

/-- GPS measurement noise `R = np.eye(2) * 0.5`. -/
def rGps : Matrix (Fin 2) (Fin 2) ℚ := (1/2 : ℚ) • 1

/-- Innovation covariance `S = H P Hᵀ + R`. -/
def innovationCov (P : Matrix (Fin 7) (Fin 7) ℚ) : Matrix (Fin 2) (Fin 2) ℚ :=
  hGps * P * hGpsᵀ + rGps

/-- Explicit 2x2 matrix inverse (adjugate over determinant): the value
`np.linalg.inv` computes on the invertible innovation matrix.  It is proved
below (`inv2_eq_inv`) to agree with Mathlib's matrix inverse whenever the
determinant is nonzero. -/
def inv2 (M : Matrix (Fin 2) (Fin 2) ℚ) : Matrix (Fin 2) (Fin 2) ℚ :=
  (M.det)⁻¹ • Matrix.of fun i j =>
    if i.val = 0 ∧ j.val = 0 then M 1 1
    else if i.val = 0 ∧ j.val = 1 then -(M 0 1)
    else if i.val = 1 ∧ j.val = 0 then -(M 1 0)
    else M 0 0

/-- Kalman gain `K = P Hᵀ S⁻¹` (`np.linalg.inv` on the invertible `S`). -/
def kalmanGain (P : Matrix (Fin 7) (Fin 7) ℚ) : Matrix (Fin 7) (Fin 2) ℚ :=
  P * hGpsᵀ * inv2 (innovationCov P)

/-- Posterior covariance of the GPS update: `P = (I - K H) P`. -/
def gpsPosteriorCov (P : Matrix (Fin 7) (Fin 7) ℚ) :
    Matrix (Fin 7) (Fin 7) ℚ :=
  (1 - kalmanGain P * hGps) * P

/-- `IMU._initialize_kalman_filter`. -/
def initializeKalman (pos : Option (ℚ × ℚ)) (heading : Option ℚ)
    (s : ImuState) : ImuState :=
  let st0 : Fin 7 → ℚ := match pos with
    | some _ => fun i => if i.val ≤ 1 then 0 else s.kfState i
    | none => s.kfState
  let st1 : Fin 7 → ℚ := match heading with
    | some h => fun i => if i.val = 6 then h else st0 i
    | none => st0
  let st2 : Fin 7 → ℚ := fun i => if 2 ≤ i.val ∧ i.val ≤ 5 then 0 else st1 i
  { s with kfState := st2, kalmanInitialized := true }

/-- `IMU._update_kalman_with_gps`.  `cosD`/`sinD` abstract
`math.cos(math.radians(·))` / `math.sin(math.radians(·))` and `sqrtD`
abstracts `math.sqrt`; nothing proved below depends on their values. -/
def updateKalmanWithGps (cosD sinD sqrtD : ℚ → ℚ) (g : GpsInput)
    (s : ImuState) : ImuState :=
  if s.kalmanInitialized = false then
    match g.latitude, g.longitude with
    | some la, some lo => initializeKalman (some (la, lo)) g.heading s
    | _, _ => s
  else
    let s1 : ImuState :=
      match g.speed with
      | some spd =>
        let θ := g.heading.getD s.currentHeading
        let vx := spd * cosD θ
        let vy := spd * sinD θ
        let z : Fin 2 → ℚ := fun i => if i.val = 0 then vx else vy
        let K := kalmanGain s.kfCov
        let st := s.kfState + K.mulVec (z - hGps.mulVec s.kfState)
        let st2 : Fin 7 → ℚ := match g.heading with
          | some h => fun i => if i.val = 6 then h else st i
          | none => st
        { s with kfState := st2, kfCov := gpsPosteriorCov s.kfCov }
      | none => s
    let s2 : ImuState :=
      match g.latitude, g.longitude with
      | some la, some lo =>
        { s1 with kfState := fun i => if i.val ≤ 1 then 0 else s1.kfState i,
                  lastPosition := some (la, lo), imuPosition := some (la, lo) }
      | _, _ => s1
    { s2 with currentSpeed := sqrtD (s2.kfState 2 ^ 2 + s2.kfState 3 ^ 2),
              currentHeading := s2.kfState 6 }

/-- `IMU.update_gps` (the `gps_data is None` early return is the `none`
case). -/
def updateGps (cosD sinD sqrtD : ℚ → ℚ) (g : Option GpsInput) (now : ℚ)
    (s : ImuState) : ImuState :=
  match g with
  | none => s
  | some gd =>
    let s1 : ImuState :=
      match gd.latitude, gd.longitude with
      | some la, some lo =>
        { s with lastPosition := some (la, lo), imuPosition := some (la, lo) }
      | _, _ => s
    let s2 : ImuState :=
      match gd.speed with
      | some v =>
        if v < 1/2 then { s1 with isStationary := true, currentSpeed := 0 } else s1
      | none => s1
    let s3 := updateKalmanWithGps cosD sinD sqrtD gd s2
    { s3 with lastGps := some gd, lastGpsTime := now, lastUpdateTime := now }

/-- `IMU.get_speed` at wall-clock time `now` (the Python truthiness test
`self.last_gps_time` is `lastGpsTime ≠ 0`). -/
def getSpeed (sqrtD : ℚ → ℚ) (s : ImuState) (now : ℚ) : ℚ :=
  if s.lastGpsTime ≠ 0 ∧ now - s.lastGpsTime < 5 then round2 s.currentSpeed
  else if s.isStationary = true then 0
  else if s.kalmanInitialized = true then
    round2 (sqrtD (s.kfState 2 ^ 2 + s.kfState 3 ^ 2))
  else round2 s.currentSpeed

/-- The motion-detection and stationary-state block of `IMU.read_data`
(lines 587-624): low-pass filter the gravity-adjusted acceleration
magnitude with `alpha = 0.2`, count consecutive below-threshold samples,
declare stationary at 15 (zeroing speed and, when the filter is
initialized, the Kalman velocity/acceleration entries), and declare moving
on any sample whose filtered value exceeds the motion threshold. -/
def motionUpdate (sqrtD : ℚ → ℚ) (now : ℚ) (s : ImuState) (ax ay az : ℚ) :
    ImuState :=
  let total := sqrtD (ax ^ 2 + ay ^ 2 + az ^ 2)
  let adjusted := |total - s.gravityNorm|
  let f := 1/5 * adjusted + (1 - 1/5) * s.filteredAccel
  if f < s.stationaryThreshold then
    let n := s.consecutiveStationarySamples + 1
    if 15 ≤ n then
      { s with filteredAccel := f, consecutiveStationarySamples := n,
               isStationary := true, currentSpeed := 0,
               kfState := if s.kalmanInitialized = true then
                   (fun i => if 2 ≤ i.val ∧ i.val ≤ 5 then 0 else s.kfState i)
                 else s.kfState }
    else
      { s with filteredAccel := f, consecutiveStationarySamples := n }
  else
    let s1 := { s with filteredAccel := f, consecutiveStationarySamples := 0 }
    if s.motionThreshold < f then
      { s1 with isStationary := false, lastMotionTime := now }
    else s1

/-- Nonnegativity of the quadratic form of a matrix: the positive
semidefiniteness invariant of the Kalman covariance. -/
def QuadNonneg (P : Matrix (Fin 7) (Fin 7) ℚ) : Prop :=
  ∀ x : Fin 7 → ℚ, 0 ≤ x ⬝ᵥ P.mulVec x

/-- Concrete IMU state used by witnesses: a freshly constructed object
(stationary, zero speed, filter not initialized). -/
def imuState0 : ImuState where
  lastGpsTime := 0
  lastUpdateTime := 0
  currentSpeed := 0
  currentHeading := 0
  isStationary := true
  filteredAccel := 0
  consecutiveStationarySamples := 20
  motionThreshold := 3/100
  stationaryThreshold := 1/100
  gravityNorm := 1
  lastMotionTime := 0
  kalmanInitialized := false
  kfState := fun _ => 0
  kfCov := (100 : ℚ) • 1
  lastPosition := none
  imuPosition := none
  lastGps := none

/-- The GPS input of the C9 counterexample: a fix at `(14, 121)` reporting
speed `10`. -/
def c9Gps : GpsInput := ⟨some 14, some 121, some 10, none⟩

/-- `imuState0` with the Kalman filter marked initialized (the state after
a first GPS fix), used by the C3 witness. -/
def imuState1 : ImuState := { imuState0 with kalmanInitialized := true }

/-- Identity on ℚ, used to instantiate the abstracted numeric primitives in
witnesses. -/
def idQ : ℚ → ℚ := fun q => q

/-- A moving IMU state with 14 consecutive quiet samples and an initialized
filter, used by the C4 witness. -/
def w4State : ImuState :=
  { imuState0 with isStationary := false, currentSpeed := 7,
                   consecutiveStationarySamples := 14,
                   kalmanInitialized := true, kfState := fun _ => 1 }

/-! ## Theorems -/

/-- **C1.** Parsing the diagnostic line
`+CGNSSINFO: 3,17,,09,10,14.6198673,N,121.1038513,E,120525,112149.00,78.0,0.000,15.78,1.91,0.95,1.6`
with `GPS.get_data` reads the fields at the fixed positions (satellites 1,
latitude 5, longitude 7, altitude 11, speed 12) and yields
latitude `14.6198673`, longitude `121.1038513`, speed `0.0`,
satellites `17`, altitude `78.0`; the fix criterion holds on the line. -/
theorem gps_parse_c1_line (prevSats : ℕ) :
    hasFixFields (cgnssFields c1Line) = true ∧
    gpsGetData prevSats c1Line =
      some { latitude := 146198673/10000000, longitude := 1211038513/10000000,
             speed := 0, satellites := 17, altitude := some 78, raw := c1Line } := by
  refine ⟨rfl, ?_⟩
  have hred : gpsGetData prevSats c1Line =
      some { latitude := 1 * (((14 : ℕ) : ℚ) + ((6198673 : ℕ) : ℚ) / (10 : ℚ) ^ (7 : ℕ)),
             longitude := 1 * (((121 : ℕ) : ℚ) + ((1038513 : ℕ) : ℚ) / (10 : ℚ) ^ (7 : ℕ)),
             speed := 1 * (((0 : ℕ) : ℚ) + ((0 : ℕ) : ℚ) / (10 : ℚ) ^ (3 : ℕ)),
             satellites := 17,
             altitude := some (1 * (((78 : ℕ) : ℚ) + ((0 : ℕ) : ℚ) / (10 : ℚ) ^ (1 : ℕ))),
             raw := c1Line } := rfl
  rw [hred]
  norm_num

/-- Witness for C1 at a concrete previous satellite count. -/
theorem gps_parse_c1_line_witness :
    hasFixFields (cgnssFields c1Line) = true ∧
    gpsGetData 0 c1Line =
      some { latitude := 146198673/10000000, longitude := 1211038513/10000000,
             speed := 0, satellites := 17, altitude := some 78, raw := c1Line } :=
  gps_parse_c1_line 0

/-- **C10.** `_to_signed_int16` maps every `v` with `0 ≤ v ≤ 65535` to the
unique `r` with `-32768 ≤ r ≤ 32767` congruent to `v` mod `65536`; reducing
it mod `2^16` round-trips to `v`, and every word assembled by
`read_raw_data` from two bytes lies in `0..65535`. -/
theorem to_signed_int16_spec (v : ℤ) (h0 : 0 ≤ v) (h1 : v ≤ 65535) :
    (-32768 ≤ toSignedInt16 v ∧ toSignedInt16 v ≤ 32767) ∧
    toSignedInt16 v % 65536 = v ∧
    (∀ r : ℤ, -32768 ≤ r → r ≤ 32767 → r % 65536 = v → r = toSignedInt16 v) ∧
    (∀ hi lo : ℕ, hi < 256 → lo < 256 → combine16 hi lo ≤ 65535) := by
  refine ⟨?_, ?_, ?_, ?_⟩
  · unfold toSignedInt16; split <;> omega
  · unfold toSignedInt16; split <;> omega
  · intro r hr0 hr1 hrm
    unfold toSignedInt16; split <;> omega
  · intro hi lo hhi hlo
    have h8 : hi <<< 8 = hi * 2 ^ 8 := Nat.shiftLeft_eq hi 8
    have hlt : hi <<< 8 < 2 ^ 16 := by
      rw [h8]; norm_num; omega
    have hlo16 : lo < 2 ^ 16 := by norm_num; omega
    have := Nat.or_lt_two_pow hlt hlo16
    unfold combine16
    norm_num at this ⊢
    omega

/-- `roundHalfEven` is the identity on integers. -/
theorem roundHalfEven_intCast (n : ℤ) : roundHalfEven ((n : ℤ) : ℚ) = n := by
  unfold roundHalfEven
  rw [Int.floor_intCast]
  norm_num

/-- `round2` fixes any rational that is an integer multiple of `1/100`. -/
theorem round2_eq_of_mul_hundred_int (q : ℚ) (n : ℤ) (h : q * 100 = (n : ℚ)) :
    round2 q = (n : ℚ) / 100 := by
  unfold round2
  rw [h, roundHalfEven_intCast]

/-- **C5.** A CGNSSINFO line with fewer than 9 comma-separated fields, or
with an empty latitude (index 5) or longitude (index 7) field, yields
"no fix": `check_gps_fix` returns `false` and stores `has_fix = false`,
`get_data` returns `None`; and the fix criterion holds only when both the
latitude and longitude fields are non-empty. -/
theorem gps_no_fix_on_bad_fields (line : PyStr) (prevSats : ℕ) (s : GpsState)
    (now : ℚ)
    (hmark : containsSub (lit ("+CGNSSINFO: ")) line = true)
    (hdue : s.fixCheckInterval ≤ now - s.lastFixCheck)
    (hbad : (cgnssFields line).length < 9 ∨
      ((cgnssFields line).getD 5 []).isEmpty = true ∨
      ((cgnssFields line).getD 7 []).isEmpty = true) :
    hasFixFields (cgnssFields line) = false ∧
    (checkGpsFix s now (some [line])).value = false ∧
    (checkGpsFix s now (some [line])).state.hasFix = false ∧
    gpsGetData prevSats line = none ∧
    (∀ l2 : PyStr, hasFixFields (cgnssFields l2) = true →
      ((cgnssFields l2).getD 5 []).isEmpty = false ∧
      ((cgnssFields l2).getD 7 []).isEmpty = false) := by
  have hfix : hasFixFields (cgnssFields line) = false := by
    unfold hasFixFields
    rcases hbad with h | h | h
    · have h9 : ¬(9 ≤ (cgnssFields line).length) := by omega
      simp [h9]
    · rw [h]; simp
    · rw [h]; simp
  have hnone : gpsGetData prevSats line = none := by
    unfold gpsGetData
    rcases hbad with h | h | h
    · rw [if_pos h]
    · by_cases hlen : (cgnssFields line).length < 9
      · rw [if_pos hlen]
      · rw [if_neg hlen, if_pos (Or.inl h)]
    · by_cases hlen : (cgnssFields line).length < 9
      · rw [if_pos hlen]
      · rw [if_neg hlen, if_pos (Or.inr h)]
  have hcheck : checkGpsFix s now (some [line]) =
      ⟨hasFixFields (cgnssFields line),
        { s with lastFixCheck := now, hasFix := hasFixFields (cgnssFields line),
                 satellites := satUpdate (cgnssFields line) s.satellites }, true⟩ := by
    unfold checkGpsFix
    rw [if_neg (not_lt.mpr hdue)]
    simp [List.find?, hmark]
  refine ⟨hfix, ?_, ?_, hnone, ?_⟩
  · rw [hcheck, hfix]
  · rw [hcheck, hfix]
  · intro l2 h2
    unfold hasFixFields at h2
    simp only [Bool.and_eq_true, decide_eq_true_eq, Bool.not_eq_true'] at h2
    exact ⟨h2.1.2, h2.2⟩

/-- Witness for C5 on the short line `+CGNSSINFO: 2,05` (only two fields). -/
theorem gps_no_fix_on_bad_fields_witness :
    (containsSub (lit ("+CGNSSINFO: ")) w5Line = true ∧
      (5 : ℚ) ≤ 10 - 0 ∧ (cgnssFields w5Line).length < 9) ∧
    (gpsGetData 3 w5Line = none ∧
      (checkGpsFix ⟨true, 0, 3, 5⟩ 10 (some [w5Line])).value = false) :=
  ⟨⟨by decide, by norm_num, by decide⟩,
    (gps_no_fix_on_bad_fields w5Line 3 ⟨true, 0, 3, 5⟩ 10 (by decide) (by norm_num)
      (Or.inl (by decide))).2.2.2.1,
    (gps_no_fix_on_bad_fields w5Line 3 ⟨true, 0, 3, 5⟩ 10 (by decide) (by norm_num)
      (Or.inl (by decide))).2.1⟩

/-- A rate-limited `check_gps_fix` call returns the cached flag and changes
nothing. -/
theorem checkGpsFix_cached (s : GpsState) (now : ℚ) (resp : Option (List PyStr))
    (h : now - s.lastFixCheck < s.fixCheckInterval) :
    checkGpsFix s now resp = ⟨s.hasFix, s, false⟩ := by
  unfold checkGpsFix
  rw [if_pos h]

/-- Key facts about a non-rate-limited `check_gps_fix` call: it issues one
AT transaction, stamps `last_fix_check` with the call time, stores the
returned value in `has_fix`, and leaves `fix_check_interval` unchanged. -/
theorem checkGpsFix_issued_facts (s : GpsState) (now : ℚ)
    (resp : Option (List PyStr)) (hdue : s.fixCheckInterval ≤ now - s.lastFixCheck) :
    (checkGpsFix s now resp).state.lastFixCheck = now ∧
    (checkGpsFix s now resp).state.hasFix = (checkGpsFix s now resp).value ∧
    (checkGpsFix s now resp).state.fixCheckInterval = s.fixCheckInterval ∧
    (checkGpsFix s now resp).txIssued = true := by
  unfold checkGpsFix
  rw [if_neg (not_lt.mpr hdue)]
  cases resp with
  | none => simp
  | some lines =>
    cases hfind : lines.find? (fun l => containsSub (lit ("+CGNSSINFO: ")) l) with
    | none => simp [hfind]
    | some line => simp [hfind]

/-- **C8.** A `check_gps_fix` call issued within `fix_check_interval` of the
previous fix check returns the cached `has_fix` value and leaves the whole
GPS state unmodified, with no AT transaction; hence a fix check that issues
a transaction followed by a second check within the interval returns the
identical value with exactly one transaction between the two calls. -/
theorem checkGpsFix_rate_limited (s : GpsState) (now now2 : ℚ)
    (resp resp2 : Option (List PyStr)) :
    (now - s.lastFixCheck < s.fixCheckInterval →
      checkGpsFix s now resp = ⟨s.hasFix, s, false⟩) ∧
    (s.fixCheckInterval ≤ now - s.lastFixCheck → now2 - now < s.fixCheckInterval →
      (checkGpsFix (checkGpsFix s now resp).state now2 resp2).value
          = (checkGpsFix s now resp).value ∧
      (checkGpsFix (checkGpsFix s now resp).state now2 resp2).state
          = (checkGpsFix s now resp).state ∧
      (checkGpsFix (checkGpsFix s now resp).state now2 resp2).txIssued = false ∧
      (checkGpsFix s now resp).txIssued = true) := by
  constructor
  · intro h
    exact checkGpsFix_cached s now resp h
  · intro hdue h2
    obtain ⟨hlast, hstore, hint, htx⟩ := checkGpsFix_issued_facts s now resp hdue
    have hcached : checkGpsFix (checkGpsFix s now resp).state now2 resp2 =
        ⟨(checkGpsFix s now resp).state.hasFix, (checkGpsFix s now resp).state, false⟩ :=
      checkGpsFix_cached _ _ _ (by rw [hlast, hint]; exact h2)
    exact ⟨by rw [hcached, hstore], by rw [hcached], by rw [hcached], htx⟩

/-- Witness for C8: interval 5, first check at `t = 10` (due), second at
`t = 11` (cached). -/
theorem checkGpsFix_rate_limited_witness :
    ((11 : ℚ) - 14 < 5 ∧
      checkGpsFix ⟨true, 14, 7, 5⟩ 11 none = ⟨true, ⟨true, 14, 7, 5⟩, false⟩) ∧
    ((5 : ℚ) ≤ 10 - 0 ∧ (11 : ℚ) - 10 < 5 ∧
      (checkGpsFix (checkGpsFix ⟨true, 0, 7, 5⟩ 10 none).state 11 none).value
        = (checkGpsFix ⟨true, 0, 7, 5⟩ 10 none).value ∧
      (checkGpsFix (checkGpsFix ⟨true, 0, 7, 5⟩ 10 none).state 11 none).txIssued = false ∧
      (checkGpsFix ⟨true, 0, 7, 5⟩ 10 none).txIssued = true) :=
  ⟨⟨by norm_num,
      (checkGpsFix_rate_limited ⟨true, 14, 7, 5⟩ 11 11 none none).1 (by norm_num)⟩,
    by norm_num, by norm_num,
    ((checkGpsFix_rate_limited ⟨true, 0, 7, 5⟩ 10 11 none none).2 (by norm_num)
      (by norm_num)).1,
    ((checkGpsFix_rate_limited ⟨true, 0, 7, 5⟩ 10 11 none none).2 (by norm_num)
      (by norm_num)).2.2.1,
    ((checkGpsFix_rate_limited ⟨true, 0, 7, 5⟩ 10 11 none none).2 (by norm_num)
      (by norm_num)).2.2.2⟩

/-- Invariant of the `send_offline_data` loop: with a kept prefix `pre` of
records whose send fails, processing the remaining snapshot `xs` over the
live queue `pre ++ xs` keeps exactly the failing records, in order. -/
theorem sendOfflineGo_invariant {α : Type} [DecidableEq α] (send : α → Bool)
    (xs : List α) : ∀ pre : List α, (∀ x ∈ pre, send x = false) →
    sendOfflineGo send xs (pre ++ xs) = pre ++ xs.filter (fun x => !send x) := by
  induction xs with
  | nil => intro pre _; simp [sendOfflineGo]
  | cons x xs ih =>
    intro pre hpre
    by_cases hx : send x = true
    · have hnotin : x ∉ pre := fun hmem => by
        have := hpre x hmem
        rw [this] at hx
        cases hx
      have herase : (pre ++ x :: xs).erase x = pre ++ xs := by
        rw [List.erase_append_right _ hnotin, List.erase_cons_head]
      simp only [sendOfflineGo, hx, if_pos, herase]
      rw [ih pre hpre, List.filter_cons]
      simp [hx]
    · have hx' : send x = false := by
        cases h : send x
        · rfl
        · exact absurd h hx
      have hstep : sendOfflineGo send (x :: xs) (pre ++ x :: xs)
          = sendOfflineGo send xs ((pre ++ [x]) ++ xs) := by
        simp only [sendOfflineGo, hx']
        rw [List.append_assoc]
        simp
      rw [hstep, ih (pre ++ [x]) ?hall, List.filter_cons]
      · simp [hx']
      · intro y hy
        rcases List.mem_append.mp hy with h | h
        · exact hpre y h
        · rw [List.mem_singleton.mp h]; exact hx'

/-- **C6.** `send_offline_data` removes exactly the records whose send
succeeds and keeps the failing ones in their relative order (it equals a
filter); in particular, enqueuing a record with `log_offline` whose send
succeeds onto a queue of records whose sends fail and then flushing removes
exactly that record and leaves the rest of the queue unchanged in order. -/
theorem send_offline_data_filter {α : Type} [DecidableEq α] (send : α → Bool)
    (q : List α) (r : α) (hr : send r = true) (hq : ∀ x ∈ q, send x = false) :
    (∀ p : List α, sendOfflineData send p = p.filter (fun x => !send x)) ∧
    sendOfflineData send (logOffline q r) = q := by
  have main : ∀ p : List α, sendOfflineData send p = p.filter (fun x => !send x) := by
    intro p
    have := sendOfflineGo_invariant send p [] (by intro x hx; cases hx)
    simpa [sendOfflineData] using this
  refine ⟨main, ?_⟩
  rw [main, logOffline, List.filter_append]
  have h1 : q.filter (fun x => !send x) = q :=
    List.filter_eq_self.mpr (fun a ha => by rw [hq a ha]; rfl)
  have h2 : [r].filter (fun x => !send x) = [] := by
    simp [List.filter_cons, hr]
  rw [h1, h2, List.append_nil]

/-- Witness for C6: queue `[1, 2, 3]`, enqueued record `5`, sending
succeeds exactly on `5`. -/
theorem send_offline_data_filter_witness :
    ((fun x : ℕ => x == 5) 5 = true ∧ ∀ x ∈ [1, 2, 3], (fun x : ℕ => x == 5) x = false) ∧
    (∀ p : List ℕ, sendOfflineData (fun x => x == 5) p
        = p.filter (fun x => !(x == 5))) ∧
    sendOfflineData (fun x => x == 5) (logOffline [1, 2, 3] 5) = [1, 2, 3] :=
  ⟨⟨by decide, by decide⟩,
    send_offline_data_filter (fun x : ℕ => x == 5) [1, 2, 3] 5 (by decide) (by decide)⟩

/-- **C2, counterexample.** On an IMU-only sample with speed `3` and the
stationary flag set, `calculate_speed` returns `0` while the claim's
reference definition ("when only one source is available, that source's
speed is used") returns `3`. -/
theorem calculate_speed_c2_counterexample :
    calculateSpeed none (some ⟨3, true⟩) 0 = 0 ∧
    specCalculateSpeed none (some ⟨3, true⟩) 0 = 3 ∧
    calculateSpeed none (some ⟨3, true⟩) 0 ≠ specCalculateSpeed none (some ⟨3, true⟩) 0 := by
  have h0 : calculateSpeed none (some ⟨3, true⟩) 0 = 0 := by
    show round2 (if (true : Bool) = true then (0 : ℚ) else 3) = 0
    rw [if_pos rfl]
    have := round2_eq_of_mul_hundred_int 0 0 (by norm_num)
    rw [this]; norm_num
  have h3 : specCalculateSpeed none (some ⟨3, true⟩) 0 = 3 := by
    show round2 (3 : ℚ) = 3
    have := round2_eq_of_mul_hundred_int 3 300 (by norm_num)
    rw [this]; norm_num
  refine ⟨h0, h3, ?_⟩
  rw [h0, h3]
  norm_num

/-- **C2, amended.** `calculate_speed` equals the reference definition
amended so that an IMU-only stationary sample yields exactly `0`; and the
spec's worked example holds: `gps = 10`, `imu = 2` (moving) combine to
`8.4`. -/
theorem calculate_speed_matches_amended_spec (g : Option ℚ) (i : Option ImuSample)
    (l : ℚ) :
    calculateSpeed g i l = specCalculateSpeedAmended g i l ∧
    calculateSpeed (some 10) (some ⟨2, false⟩) 0 = 42/5 := by
  constructor
  · cases g with
    | none =>
      cases i with
      | none => rfl
      | some s => rfl
    | some gv =>
      cases i with
      | none => rfl
      | some s =>
        by_cases hs : s.speed = 0 ∧ s.isStationary = true
        · obtain ⟨h1, h2⟩ := hs
          simp [calculateSpeed, specCalculateSpeedAmended, blendTowardZero,
            snapBelow, h1, h2]
        · have hs2 : ¬(s.isStationary = true ∧ s.speed = 0) := fun h => hs ⟨h.2, h.1⟩
          simp only [calculateSpeed, specCalculateSpeedAmended, blendTowardZero,
            snapBelow, if_neg hs, if_neg hs2]
  · show round2 (4/5 * 10 + 1/5 * 2) = 42/5
    have harg : (4/5 * 10 + 1/5 * 2 : ℚ) = 42/5 := by norm_num
    rw [harg, round2_eq_of_mul_hundred_int (42/5) 840 (by norm_num)]
    norm_num

/-- **C7.** With `max_dead_reckoning_time = 300`, GPS failed, IMU working
and dead reckoning active: a tick at elapsed time `301` produces no
synthetic GPS record and clears the flag, while a tick at elapsed time
`299` produces the dead-reckoning-flagged record carrying the IMU position
and speed. -/
theorem dead_reckoning_ceiling (t v : ℚ) (p : ℚ × ℚ) :
    deadReckoningFallback (t + 301) t 300 true false true (some ⟨some p, v⟩) false
      = (none, false) ∧
    deadReckoningFallback (t + 299) t 300 true false true (some ⟨some p, v⟩) false
      = (some ⟨p.1, p.2, v, true⟩, true) := by
  constructor
  · unfold deadReckoningFallback
    rw [if_pos ⟨rfl, rfl, rfl⟩, if_pos (by linarith)]
  · unfold deadReckoningFallback
    rw [if_pos ⟨rfl, rfl, rfl⟩, if_neg (by linarith)]
    simp

/-- Witness for C10 at `v = 40000` (decodes to `-25536`). -/
theorem to_signed_int16_witness :
    ((0 : ℤ) ≤ 40000 ∧ (40000 : ℤ) ≤ 65535) ∧
    ((-32768 ≤ toSignedInt16 40000 ∧ toSignedInt16 40000 ≤ 32767) ∧
      toSignedInt16 40000 % 65536 = 40000 ∧
      (∀ r : ℤ, -32768 ≤ r → r ≤ 32767 → r % 65536 = 40000 → r = toSignedInt16 40000) ∧
      (∀ hi lo : ℕ, hi < 256 → lo < 256 → combine16 hi lo ≤ 65535)) :=
  ⟨⟨by norm_num, by norm_num⟩, to_signed_int16_spec 40000 (by norm_num) (by norm_num)⟩


/-- The filtered acceleration after a `read_data` motion step is the
low-pass blend `0.2 * adjusted + 0.8 * previous`, in every branch. -/
theorem motionUpdate_filteredAccel (sqrtD : ℚ → ℚ) (now ax ay az : ℚ)
    (s : ImuState) :
    (motionUpdate sqrtD now s ax ay az).filteredAccel
      = 1/5 * |sqrtD (ax ^ 2 + ay ^ 2 + az ^ 2) - s.gravityNorm|
        + (1 - 1/5) * s.filteredAccel := by
  simp only [motionUpdate]
  split_ifs <;> rfl

/-- **C4.** In the `read_data` motion step: a sample whose filtered
acceleration is below `stationary_threshold` and which raises the
consecutive-stationary count to at least 15 makes the state stationary,
sets `current_speed` to exactly `0`, and zeroes the Kalman state entries
2..5 when the filter is initialized; conversely a single sample whose
filtered acceleration exceeds `motion_threshold` makes the state moving. -/
theorem imu_stationary_hysteresis (sqrtD : ℚ → ℚ) (now ax ay az : ℚ)
    (s : ImuState) (hth : s.stationaryThreshold ≤ s.motionThreshold) :
    ((motionUpdate sqrtD now s ax ay az).filteredAccel < s.stationaryThreshold →
      15 ≤ s.consecutiveStationarySamples + 1 →
      (motionUpdate sqrtD now s ax ay az).isStationary = true ∧
      (motionUpdate sqrtD now s ax ay az).currentSpeed = 0 ∧
      (s.kalmanInitialized = true → ∀ i : Fin 7, 2 ≤ i.val → i.val ≤ 5 →
        (motionUpdate sqrtD now s ax ay az).kfState i = 0)) ∧
    (s.motionThreshold < (motionUpdate sqrtD now s ax ay az).filteredAccel →
      (motionUpdate sqrtD now s ax ay az).isStationary = false) := by
  have hf := motionUpdate_filteredAccel sqrtD now ax ay az s
  constructor
  · intro h1 h2
    rw [hf] at h1
    simp only [motionUpdate]
    rw [if_pos h1, if_pos h2]
    refine ⟨rfl, rfl, ?_⟩
    intro hk i hi1 hi2
    show (if s.kalmanInitialized = true then
        (fun i : Fin 7 => if 2 ≤ i.val ∧ i.val ≤ 5 then (0:ℚ) else s.kfState i)
      else s.kfState) i = 0
    rw [if_pos hk]
    exact if_pos ⟨hi1, hi2⟩
  · intro h2
    rw [hf] at h2
    have hnot : ¬(1/5 * |sqrtD (ax ^ 2 + ay ^ 2 + az ^ 2) - s.gravityNorm|
        + (1 - 1/5) * s.filteredAccel < s.stationaryThreshold) :=
      not_lt.mpr (le_of_lt (lt_of_le_of_lt hth h2))
    simp only [motionUpdate]
    rw [if_neg hnot, if_pos h2]

/-- Witness for C4: a 15th consecutive quiet sample on a moving state, and
a loud sample on a stationary state. -/
theorem imu_stationary_hysteresis_witness :
    (w4State.stationaryThreshold ≤ w4State.motionThreshold ∧
      (motionUpdate idQ 0 w4State 0 0 1).filteredAccel < w4State.stationaryThreshold ∧
      15 ≤ w4State.consecutiveStationarySamples + 1) ∧
    ((motionUpdate idQ 0 w4State 0 0 1).isStationary = true ∧
      (motionUpdate idQ 0 w4State 0 0 1).currentSpeed = 0 ∧
      (motionUpdate idQ 0 w4State 0 0 1).kfState 3 = 0) ∧
    (imuState0.stationaryThreshold ≤ imuState0.motionThreshold ∧
      imuState0.motionThreshold < (motionUpdate idQ 0 imuState0 3 4 0).filteredAccel ∧
      (motionUpdate idQ 0 imuState0 3 4 0).isStationary = false) := by
  have hth : w4State.stationaryThreshold ≤ w4State.motionThreshold := by
    norm_num [w4State, imuState0]
  have hth0 : imuState0.stationaryThreshold ≤ imuState0.motionThreshold := by
    norm_num [imuState0]
  have hfa : (motionUpdate idQ 0 w4State 0 0 1).filteredAccel
      < w4State.stationaryThreshold := by
    rw [motionUpdate_filteredAccel]
    norm_num [w4State, imuState0, idQ]
  have h15 : 15 ≤ w4State.consecutiveStationarySamples + 1 := by
    norm_num [w4State, imuState0]
  obtain ⟨hstat, hspd, hkf⟩ :=
    (imu_stationary_hysteresis idQ 0 0 0 1 w4State hth).1 hfa h15
  have hfa2 : imuState0.motionThreshold
      < (motionUpdate idQ 0 imuState0 3 4 0).filteredAccel := by
    rw [motionUpdate_filteredAccel]
    norm_num [imuState0, idQ]
  have hmove := (imu_stationary_hysteresis idQ 0 3 4 0 imuState0 hth0).2 hfa2
  exact ⟨⟨hth, hfa, h15⟩,
    ⟨hstat, hspd, hkf (by rw [w4State]) 3 (by decide) (by decide)⟩,
    ⟨hth0, hfa2, hmove⟩⟩

/-- **C9, counterexample.** With a fresh IMU state (Kalman filter not yet
initialized, `current_speed = 0`), `update_gps` with a GPS fix reporting
speed `10` followed by `get_speed` one second later returns `0`, not the
GPS-reported `10`: the claim "get_speed returns the GPS-reported speed
whenever the last GPS update is younger than 5 s" fails at this input. -/
theorem get_speed_c9_counterexample :
    c9Gps.speed = some 10 ∧
    getSpeed idQ (updateGps idQ idQ idQ (some c9Gps) 100 imuState0) 101 = 0 ∧
    getSpeed idQ (updateGps idQ idQ idQ (some c9Gps) 100 imuState0) 101 ≠ 10 := by
  have hlt : ¬((10:ℚ) < 1/2) := by norm_num
  have hcur : (updateGps idQ idQ idQ (some c9Gps) 100 imuState0).currentSpeed = 0 := by
    simp only [updateGps, updateKalmanWithGps, initializeKalman, c9Gps, imuState0]
    norm_num
  have hlast : (updateGps idQ idQ idQ (some c9Gps) 100 imuState0).lastGpsTime = 100 := rfl
  have hval : getSpeed idQ (updateGps idQ idQ idQ (some c9Gps) 100 imuState0) 101 = 0 := by
    unfold getSpeed
    rw [hlast, hcur, if_pos (by norm_num)]
    rw [round2_eq_of_mul_hundred_int 0 0 (by norm_num)]
    norm_num
  exact ⟨rfl, hval, by rw [hval]; norm_num⟩

/-- **C9, amended.** `get_speed` returns the stored fused estimate
`current_speed` (rounded to two decimals) whenever the last GPS update is
younger than the 5-second window; when the last update is 5 seconds old or
older (or never happened) and the state is stationary it returns exactly
`0`; and `update_gps` stamps the update time used by that window. -/
theorem get_speed_freshness (sqrtD cosD sinD : ℚ → ℚ) (s : ImuState)
    (now t : ℚ) (g : GpsInput) :
    (s.lastGpsTime ≠ 0 → now - s.lastGpsTime < 5 →
      getSpeed sqrtD s now = round2 s.currentSpeed) ∧
    (¬(s.lastGpsTime ≠ 0 ∧ now - s.lastGpsTime < 5) → s.isStationary = true →
      getSpeed sqrtD s now = 0) ∧
    (updateGps cosD sinD sqrtD (some g) t s).lastGpsTime = t := by
  refine ⟨?_, ?_, rfl⟩
  · intro h1 h2
    unfold getSpeed
    rw [if_pos ⟨h1, h2⟩]
  · intro h1 h2
    unfold getSpeed
    rw [if_neg h1, if_pos h2]

/-- Witness for C9: a fresh-GPS state returns `round2 current_speed`; a
stale stationary state returns `0`. -/
theorem get_speed_freshness_witness :
    (((100 : ℚ) ≠ 0 ∧ (101 : ℚ) - 100 < 5) ∧
      getSpeed idQ { imuState0 with lastGpsTime := 100, currentSpeed := 7 } 101
        = round2 (7 : ℚ)) ∧
    (¬((0 : ℚ) ≠ 0 ∧ (3 : ℚ) - 0 < 5) ∧ imuState0.isStationary = true ∧
      getSpeed idQ imuState0 3 = 0) ∧
    (updateGps idQ idQ idQ (some c9Gps) 42 imuState0).lastGpsTime = 42 := by
  refine ⟨⟨⟨by norm_num, by norm_num⟩, ?_⟩, ⟨by norm_num, rfl, ?_⟩, ?_⟩
  · exact (get_speed_freshness idQ idQ idQ
      { imuState0 with lastGpsTime := 100, currentSpeed := 7 } 101 0 c9Gps).1
      (by norm_num) (by norm_num)
  · exact (get_speed_freshness idQ idQ idQ imuState0 3 0 c9Gps).2.1
      (by norm_num [imuState0]) rfl
  · exact (get_speed_freshness idQ idQ idQ imuState0 3 42 c9Gps).2.2

/-- The dot product of a rational vector with itself is nonnegative. -/
theorem dotProduct_self_nonneg7 (x : Fin 7 → ℚ) : 0 ≤ x ⬝ᵥ x :=
  Finset.sum_nonneg fun i _ => mul_self_nonneg (x i)

/-- A diagonal entry is the quadratic form at a standard basis vector. -/
theorem diag_eq_quadform (M : Matrix (Fin 7) (Fin 7) ℚ) (i : Fin 7) :
    M i i = (fun k => if k = i then (1:ℚ) else 0) ⬝ᵥ
      M.mulVec (fun k => if k = i then (1:ℚ) else 0) := by
  simp [Matrix.dotProduct, Matrix.mulVec, mul_ite, ite_mul, mul_one, mul_zero,
    one_mul, zero_mul, Finset.sum_ite_eq, Finset.sum_ite_eq', Finset.mem_univ]

/-- Congruence `A P Aᵀ` preserves nonnegativity of the quadratic form. -/
theorem quadNonneg_conj (P A : Matrix (Fin 7) (Fin 7) ℚ)
    (hpsd : QuadNonneg P) : QuadNonneg (A * P * Aᵀ) := by
  intro x
  have h1 : (A * P * Aᵀ).mulVec x = A.mulVec (P.mulVec (Aᵀ.mulVec x)) := by
    rw [← Matrix.mulVec_mulVec, ← Matrix.mulVec_mulVec]
  rw [h1, Matrix.dotProduct_mulVec, ← Matrix.mulVec_transpose]
  exact hpsd _

/-- The predicted covariance stays symmetric. -/
theorem predictCov_transpose (dt : ℚ) (P : Matrix (Fin 7) (Fin 7) ℚ)
    (hsym : Pᵀ = P) : (predictCov dt P)ᵀ = predictCov dt P := by
  unfold predictCov kfProcessNoise
  rw [Matrix.transpose_add, Matrix.transpose_smul, Matrix.transpose_one]
  congr 1
  rw [Matrix.transpose_mul, Matrix.transpose_mul, Matrix.transpose_transpose,
    hsym, Matrix.mul_assoc]

/-- The predicted covariance keeps a nonnegative quadratic form. -/
theorem predictCov_quadNonneg (dt : ℚ) (P : Matrix (Fin 7) (Fin 7) ℚ)
    (hpsd : QuadNonneg P) : QuadNonneg (predictCov dt P) := by
  intro x
  unfold predictCov kfProcessNoise
  rw [Matrix.add_mulVec, Matrix.dotProduct_add]
  refine add_nonneg (quadNonneg_conj P (stateTransition dt) hpsd x) ?_
  rw [Matrix.smul_mulVec_assoc, Matrix.one_mulVec, Matrix.dotProduct_smul]
  have h := dotProduct_self_nonneg7 x
  rw [smul_eq_mul]
  nlinarith [h]

/-- After prediction the `vx` variance is at least the process noise. -/
theorem predictCov_diag2 (dt : ℚ) (P : Matrix (Fin 7) (Fin 7) ℚ)
    (hpsd : QuadNonneg P) : 1/100 ≤ predictCov dt P 2 2 := by
  have h1 : 0 ≤ (stateTransition dt * P * (stateTransition dt)ᵀ) 2 2 := by
    rw [diag_eq_quadform (stateTransition dt * P * (stateTransition dt)ᵀ) 2]
    exact quadNonneg_conj P (stateTransition dt) hpsd _
  have h2 : predictCov dt P 2 2
      = (stateTransition dt * P * (stateTransition dt)ᵀ) 2 2 + 1/100 := by
    unfold predictCov kfProcessNoise
    rw [Matrix.add_apply, Matrix.smul_apply, Matrix.one_apply_eq, smul_eq_mul]
    norm_num
  rw [h2]
  linarith

/-- Numeric value of the `Fin 7` literal `3`. -/
theorem finval3 : ((3 : Fin 7) : ℕ) = 3 := rfl

/-- Numeric value of the `Fin 7` literal `4`. -/
theorem finval4 : ((4 : Fin 7) : ℕ) = 4 := rfl

/-- Numeric value of the `Fin 7` literal `5`. -/
theorem finval5 : ((5 : Fin 7) : ℕ) = 5 := rfl

/-- Numeric value of the `Fin 7` literal `6`. -/
theorem finval6 : ((6 : Fin 7) : ℕ) = 6 := rfl

/-- The quadratic form at a vector supported on coordinates 2 and 3. -/
theorem quadform_two_coords (P : Matrix (Fin 7) (Fin 7) ℚ) (s t : ℚ) :
    (fun k : Fin 7 => if k.val = 2 then s else if k.val = 3 then t else 0) ⬝ᵥ
      P.mulVec (fun k : Fin 7 => if k.val = 2 then s else if k.val = 3 then t else 0)
    = s * (P 2 2 * s + P 2 3 * t) + t * (P 3 2 * s + P 3 3 * t) := by
  simp [Matrix.dotProduct, Matrix.mulVec, Fin.sum_univ_seven, mul_ite, ite_mul,
    mul_zero, zero_mul, mul_one, one_mul, finval3, finval4, finval5, finval6]
  try ring

/-- Positive semidefiniteness facts for the 2x2 velocity minor of a
symmetric covariance with positive `vx` variance. -/
theorem psd_minor_facts (P : Matrix (Fin 7) (Fin 7) ℚ) (hsym : Pᵀ = P)
    (hpsd : QuadNonneg P) (ha : 1/100 ≤ P 2 2) :
    0 ≤ P 3 3 ∧ P 2 3 * P 2 3 ≤ P 2 2 * P 3 3 := by
  have h32 : P 3 2 = P 2 3 := congrFun (congrFun hsym 2) 3
  have hd : 0 ≤ P 3 3 := by
    have h := hpsd (fun k : Fin 7 => if k.val = 2 then 0 else if k.val = 3 then 1 else 0)
    rw [quadform_two_coords] at h
    nlinarith [h]
  refine ⟨hd, ?_⟩
  have hkey := hpsd
    (fun k : Fin 7 => if k.val = 2 then -(P 2 3) else if k.val = 3 then P 2 2 else 0)
  rw [quadform_two_coords, h32] at hkey
  have ha0 : (0:ℚ) < P 2 2 := by linarith
  by_contra hcon
  push_neg at hcon
  nlinarith [hkey, ha0, hcon]

/-- Entries of the innovation covariance `S = H P Hᵀ + R`. -/
theorem innovationCov_entries (P : Matrix (Fin 7) (Fin 7) ℚ) :
    innovationCov P 0 0 = P 2 2 + 1/2 ∧ innovationCov P 0 1 = P 2 3 ∧
    innovationCov P 1 0 = P 3 2 ∧ innovationCov P 1 1 = P 3 3 + 1/2 := by
  refine ⟨?_, ?_, ?_, ?_⟩ <;>
    simp [innovationCov, hGps, rGps, Matrix.mul_apply, Fin.sum_univ_seven,
      Fin.sum_univ_two, Matrix.one_apply, Matrix.of_apply, Matrix.transpose_apply,
      Matrix.add_apply, Matrix.smul_apply, smul_eq_mul, finval3, finval4, finval5,
      finval6]

/-- Entries of the Gram matrix `(H P)(H P)ᵀ` for a symmetric `P`: sums of
products of the velocity rows of `P`. -/
theorem gram_entry_vals (P : Matrix (Fin 7) (Fin 7) ℚ) (hsym : Pᵀ = P) :
    ((hGps * P) * (P * hGpsᵀ)) 0 0 = ∑ j : Fin 7, P 2 j * P 2 j ∧
    ((hGps * P) * (P * hGpsᵀ)) 0 1 = ∑ j : Fin 7, P 2 j * P 3 j ∧
    ((hGps * P) * (P * hGpsᵀ)) 1 0 = ∑ j : Fin 7, P 2 j * P 3 j ∧
    ((hGps * P) * (P * hGpsᵀ)) 1 1 = ∑ j : Fin 7, P 3 j * P 3 j := by
  have hs : ∀ i j, P j i = P i j := fun i j => congrFun (congrFun hsym i) j
  have hrow0 : ∀ j : Fin 7, (hGps * P) 0 j = P 2 j := by
    intro j
    simp [hGps, Matrix.mul_apply, Fin.sum_univ_seven, Matrix.of_apply, finval3,
      finval4, finval5, finval6]
  have hrow1 : ∀ j : Fin 7, (hGps * P) 1 j = P 3 j := by
    intro j
    simp [hGps, Matrix.mul_apply, Fin.sum_univ_seven, Matrix.of_apply, finval3,
      finval4, finval5, finval6]
  have hcol0 : ∀ j : Fin 7, (P * hGpsᵀ) j 0 = P j 2 := by
    intro j
    simp [hGps, Matrix.mul_apply, Fin.sum_univ_seven, Matrix.of_apply,
      Matrix.transpose_apply, finval3, finval4, finval5, finval6]
  have hcol1 : ∀ j : Fin 7, (P * hGpsᵀ) j 1 = P j 3 := by
    intro j
    simp [hGps, Matrix.mul_apply, Fin.sum_univ_seven, Matrix.of_apply,
      Matrix.transpose_apply, finval3, finval4, finval5, finval6]
  refine ⟨?_, ?_, ?_, ?_⟩
  · rw [Matrix.mul_apply]
    refine Finset.sum_congr rfl fun j _ => ?_
    rw [hrow0 j, hcol0 j, hs 2 j]
  · rw [Matrix.mul_apply]
    refine Finset.sum_congr rfl fun j _ => ?_
    rw [hrow0 j, hcol1 j, hs 3 j]
  · rw [Matrix.mul_apply]
    refine Finset.sum_congr rfl fun j _ => ?_
    rw [hrow1 j, hcol0 j, hs 2 j, mul_comm]
  · rw [Matrix.mul_apply]
    refine Finset.sum_congr rfl fun j _ => ?_
    rw [hrow1 j, hcol1 j, hs 3 j]

/-- The determinant of the innovation covariance is positive for a
symmetric PSD covariance with positive `vx` variance (so `np.linalg.inv`
succeeds and the explicit 2x2 inverse is the true inverse). -/
theorem innovation_det_pos (P : Matrix (Fin 7) (Fin 7) ℚ) (hsym : Pᵀ = P)
    (hpsd : QuadNonneg P) (ha : 1/100 ≤ P 2 2) :
    0 < (innovationCov P).det := by
  obtain ⟨hd, hb⟩ := psd_minor_facts P hsym hpsd ha
  obtain ⟨h00, h01, h10, h11⟩ := innovationCov_entries P
  have h32 : P 3 2 = P 2 3 := congrFun (congrFun hsym 2) 3
  rw [Matrix.det_fin_two, h00, h01, h10, h11, h32]
  nlinarith [ha, hd, hb]

/-- The explicit 2x2 inverse is Mathlib's matrix inverse whenever the
determinant is nonzero: `inv2` computes what `np.linalg.inv` returns. -/
theorem inv2_eq_inv (M : Matrix (Fin 2) (Fin 2) ℚ) (_h : M.det ≠ 0) :
    inv2 M = M⁻¹ := by
  rw [Matrix.inv_def, Matrix.adjugate_fin_two, Ring.inverse_eq_inv]
  unfold inv2
  congr 1
  ext i j
  fin_cases i <;> fin_cases j <;>
    simp [Matrix.of_apply, Matrix.cons_val_zero, Matrix.cons_val_one,
      Matrix.head_cons]

/-- Trace of the posterior covariance: the prior trace minus the trace of
the 2x2 product of the Gram matrix with the inverse innovation matrix. -/
theorem gpsPosteriorCov_trace (P : Matrix (Fin 7) (Fin 7) ℚ) :
    (gpsPosteriorCov P).trace
      = P.trace - (((hGps * P) * (P * hGpsᵀ)) * inv2 (innovationCov P)).trace := by
  unfold gpsPosteriorCov kalmanGain
  rw [sub_mul, one_mul, Matrix.trace_sub]
  congr 1
  rw [Matrix.mul_assoc (P * hGpsᵀ * inv2 (innovationCov P)) hGps P,
    Matrix.trace_mul_comm, ← Matrix.mul_assoc]

/-- Expansion of the 2x2 trace `tr (G · inv2 S)`. -/
theorem trace_mul_inv2_expand (G S : Matrix (Fin 2) (Fin 2) ℚ) :
    (G * inv2 S).trace = (S.det)⁻¹ *
      (G 0 0 * S 1 1 - G 0 1 * S 1 0 - G 1 0 * S 0 1 + G 1 1 * S 0 0) := by
  simp [inv2, Matrix.trace_fin_two, Matrix.mul_apply, Fin.sum_univ_two,
    Matrix.smul_apply, Matrix.of_apply, smul_eq_mul]
  ring

/-- Positivity of the numerator of the trace reduction: pure algebra on the
minor `a, b, d` and the Gram entries `m11, m12, m22`. -/
theorem trace_numerator_pos (a b d m11 m12 m22 : ℚ) (ha : 1/100 ≤ a)
    (hd : 0 ≤ d) (hb : b * b ≤ a * d) (hm11 : a * a ≤ m11) (hm22 : 0 ≤ m22)
    (hcs : m12 * m12 ≤ m11 * m22) :
    0 < m11 * (d + 1/2) - m12 * b - m12 * b + m22 * (a + 1/2) := by
  have ha0 : (0:ℚ) < a := by linarith
  have h1 : 0 < m11 := lt_of_lt_of_le (by positivity) hm11
  have h3 : (b * b) * (m12 * m12) ≤ (a * d) * (m11 * m22) :=
    mul_le_mul hb hcs (mul_self_nonneg m12) (by positivity)
  have hkey : 2 * (m12 * b) ≤ d * m11 + a * m22 := by
    nlinarith [sq_nonneg (d * m11 - a * m22), sq_nonneg (d * m11 + a * m22),
      mul_nonneg hd h1.le, mul_nonneg ha0.le hm22, h3]
  nlinarith [hkey, h1, hm22]

/-- Core inequality for C3: one GPS covariance update strictly reduces the
trace of any symmetric PSD covariance whose `vx` variance is at least the
process noise. -/
theorem gps_update_trace_lt (P : Matrix (Fin 7) (Fin 7) ℚ) (hsym : Pᵀ = P)
    (hpsd : QuadNonneg P) (ha : 1/100 ≤ P 2 2) :
    (gpsPosteriorCov P).trace < P.trace := by
  obtain ⟨hd, hb⟩ := psd_minor_facts P hsym hpsd ha
  have hdet := innovation_det_pos P hsym hpsd ha
  obtain ⟨hS00, hS01, hS10, hS11⟩ := innovationCov_entries P
  obtain ⟨hG00, hG01, hG10, hG11⟩ := gram_entry_vals P hsym
  have h32 : P 3 2 = P 2 3 := congrFun (congrFun hsym 2) 3
  rw [gpsPosteriorCov_trace P, trace_mul_inv2_expand]
  apply sub_lt_self
  rw [hS00, hS01, hS10, hS11, hG00, hG01, hG10, hG11, h32]
  apply mul_pos (inv_pos.mpr hdet)
  have hsq2 : ∀ f : Fin 7 → ℚ, ∑ j : Fin 7, f j * f j = ∑ j : Fin 7, f j ^ 2 :=
    fun f => Finset.sum_congr rfl fun j _ => (pow_two (f j)).symm
  have hm11 : P 2 2 * P 2 2 ≤ ∑ j : Fin 7, P 2 j * P 2 j := by
    rw [hsq2 (fun j => P 2 j), ← pow_two]
    exact Finset.single_le_sum (f := fun j => P 2 j ^ 2)
      (fun j _ => sq_nonneg _) (Finset.mem_univ 2)
  have hm22 : 0 ≤ ∑ j : Fin 7, P 3 j * P 3 j :=
    Finset.sum_nonneg fun j _ => mul_self_nonneg _
  have hcs : (∑ j : Fin 7, P 2 j * P 3 j) * (∑ j : Fin 7, P 2 j * P 3 j)
      ≤ (∑ j : Fin 7, P 2 j * P 2 j) * (∑ j : Fin 7, P 3 j * P 3 j) := by
    rw [hsq2 (fun j => P 2 j), hsq2 (fun j => P 3 j), ← pow_two]
    exact Finset.sum_mul_sq_le_sq_mul_sq Finset.univ (fun j => P 2 j) (fun j => P 3 j)
  have := trace_numerator_pos (P 2 2) (P 2 3) (P 3 3)
    (∑ j : Fin 7, P 2 j * P 2 j) (∑ j : Fin 7, P 2 j * P 3 j)
    (∑ j : Fin 7, P 3 j * P 3 j) ha hd hb hm11 hm22 hcs
  linarith [this]

/-- `_predict_kalman` on an initialized filter: the covariance becomes
`F P Fᵀ + Q` and the filter stays initialized. -/
theorem predictKalman_cov (dt : ℚ) (s : ImuState)
    (hinit : s.kalmanInitialized = true) :
    (predictKalman dt s).kfCov = predictCov dt s.kfCov ∧
    (predictKalman dt s).kalmanInitialized = true := by
  unfold predictKalman
  rw [if_pos hinit]
  exact ⟨rfl, hinit⟩

/-- `_update_kalman_with_gps` on an initialized filter with a GPS speed
measurement: the covariance becomes `(I - K H) P`. -/
theorem updateKalman_cov (cosD sinD sqrtD : ℚ → ℚ) (g : GpsInput)
    (s : ImuState) (spd : ℚ) (hinit : s.kalmanInitialized = true)
    (hspd : g.speed = some spd) :
    (updateKalmanWithGps cosD sinD sqrtD g s).kfCov
      = gpsPosteriorCov s.kfCov := by
  unfold updateKalmanWithGps
  rw [hinit, hspd]
  cases g.latitude <;> cases g.longitude <;> simp

/-- **C3.** For every initialized Kalman state with a symmetric PSD
covariance and every GPS measurement carrying a speed, the GPS measurement
update run immediately after a prediction step strictly reduces the trace
of the covariance matrix relative to the predicted covariance. -/
theorem kalman_gps_update_reduces_cov_trace (cosD sinD sqrtD : ℚ → ℚ)
    (g : GpsInput) (s : ImuState) (dt spd : ℚ)
    (hinit : s.kalmanInitialized = true) (hspd : g.speed = some spd)
    (hsym : s.kfCovᵀ = s.kfCov) (hpsd : QuadNonneg s.kfCov) :
    ((updateKalmanWithGps cosD sinD sqrtD g (predictKalman dt s)).kfCov).trace
      < ((predictKalman dt s).kfCov).trace := by
  obtain ⟨hcov, hinit2⟩ := predictKalman_cov dt s hinit
  rw [updateKalman_cov cosD sinD sqrtD g (predictKalman dt s) spd hinit2 hspd,
    hcov]
  exact gps_update_trace_lt (predictCov dt s.kfCov)
    (predictCov_transpose dt s.kfCov hsym)
    (predictCov_quadNonneg dt s.kfCov hpsd)
    (predictCov_diag2 dt s.kfCov hpsd)

/-- Witness for C3: the freshly initialized state (covariance `100·I`) with
the GPS input reporting speed `10`, predicted over `dt = 1/10`. -/
theorem kalman_gps_update_reduces_cov_trace_witness :
    (imuState1.kalmanInitialized = true ∧ c9Gps.speed = some 10 ∧
      imuState1.kfCovᵀ = imuState1.kfCov ∧ QuadNonneg imuState1.kfCov) ∧
    ((updateKalmanWithGps idQ idQ idQ c9Gps (predictKalman (1/10) imuState1)).kfCov).trace
      < ((predictKalman (1/10) imuState1).kfCov).trace := by
  have hsym : imuState1.kfCovᵀ = imuState1.kfCov := by
    show ((100 : ℚ) • (1 : Matrix (Fin 7) (Fin 7) ℚ))ᵀ = (100 : ℚ) • 1
    rw [Matrix.transpose_smul, Matrix.transpose_one]
  have hpsd : QuadNonneg imuState1.kfCov := by
    intro x
    show 0 ≤ x ⬝ᵥ ((100 : ℚ) • (1 : Matrix (Fin 7) (Fin 7) ℚ)).mulVec x
    rw [Matrix.smul_mulVec_assoc, Matrix.one_mulVec, Matrix.dotProduct_smul,
      smul_eq_mul]
    have := dotProduct_self_nonneg7 x
    nlinarith [this]
  exact ⟨⟨rfl, rfl, hsym, hpsd⟩,
    kalman_gps_update_reduces_cov_trace idQ idQ idQ c9Gps imuState1 (1/10) 10
      rfl rfl hsym hpsd⟩

/-- Witness for C2 at the spec's worked example. -/
theorem calculate_speed_matches_amended_spec_witness :
    calculateSpeed (some 10) (some ⟨2, false⟩) 0
      = specCalculateSpeedAmended (some 10) (some ⟨2, false⟩) 0 ∧
    calculateSpeed (some 10) (some ⟨2, false⟩) 0 = 42/5 :=
  calculate_speed_matches_amended_spec (some 10) (some ⟨2, false⟩) 0

/-- Witness for C7 at a concrete position and speed. -/
theorem dead_reckoning_ceiling_witness :
    deadReckoningFallback (0 + 301) 0 300 true false true
        (some ⟨some (14, 121), 5⟩) false = (none, false) ∧
    deadReckoningFallback (0 + 299) 0 300 true false true
        (some ⟨some (14, 121), 5⟩) false = (some ⟨14, 121, 5, true⟩, true) :=
  dead_reckoning_ceiling 0 5 (14, 121)
